import Mathlib

/-!
Verification of the gitlin comment-aggregation and issue-synchronization
pipeline.  The definitions below are a shallow embedding of the TypeScript
sources: `src/linear-client.ts` (batch issue creation, priority mapping,
description building, label and assignee resolution), `src/index.ts`
(comment collection, coarse PR-level dedup) and the compiled
`dist/index.js` (fine-grained comment-id dedup and the run pipeline).
Text is modelled as `List Char`; every external collaborator call is an
explicit oracle value threaded through the state.
-/

set_option autoImplicit false
set_option linter.unusedVariables false

namespace Gitlin

/-- Text content (comment bodies, descriptions, URLs) as a list of
characters, mirroring JavaScript strings. -/
abbrev Text := List Char

/-- Fuel-driven core of the decimal rendering; the fuel only bounds the
recursion depth and is always supplied large enough. -/
def natCharsGo : Nat → Nat → Text
  | 0, _ => []
  | fuel + 1, n =>
    if n < 10 then [Nat.digitChar n]
    else natCharsGo fuel (n / 10) ++ [Nat.digitChar (n % 10)]

/-- Decimal rendering of a natural number, as a JS template literal
prints a non-negative integer (`${comment.id}`). -/
def natChars (n : Nat) : Text := natCharsGo (n + 1) n

theorem natCharsGo_congr : ∀ (f : Nat), ∀ (g n : Nat), n < f → n < g →
    natCharsGo f n = natCharsGo g n := by
  intro f
  induction f with
  | zero => intro g n h1 h2; omega
  | succ f ih =>
    intro g n h1 h2
    cases g with
    | zero => omega
    | succ g =>
      simp only [natCharsGo]
      split
      · rfl
      · next h =>
        have hdiv : n / 10 < n := Nat.div_lt_self (by omega) (by omega)
        rw [ih g (n / 10) (by omega) (by omega)]

theorem natChars_eq (n : Nat) : natChars n =
    if n < 10 then [Nat.digitChar n]
    else natChars (n / 10) ++ [Nat.digitChar (n % 10)] := by
  unfold natChars
  rw [natCharsGo]
  split
  · rfl
  · next h =>
    have hdiv : n / 10 < n := Nat.div_lt_self (by omega) (by omega)
    rw [natCharsGo_congr n (n / 10 + 1) (n / 10) (by omega) (by omega)]

/-- Value of a run of decimal digit characters, as `parseInt(s, 10)`
computes it on a digit-only string. -/
def digitsToNat (ds : Text) : Nat :=
  ds.foldl (fun a c => a * 10 + (c.toNat - 48)) 0

theorem digitChar_toNat_sub (d : Nat) (h : d < 10) :
    (Nat.digitChar d).toNat - 48 = d := by
  interval_cases d <;> rfl

theorem digitChar_isDigit (d : Nat) (h : d < 10) :
    (Nat.digitChar d).isDigit = true := by
  interval_cases d <;> rfl

theorem natChars_foldl (n : Nat) : ∀ a : Nat,
    (natChars n).foldl (fun a c => a * 10 + (c.toNat - 48)) a
      = a * 10 ^ (natChars n).length + n := by
  induction n using Nat.strong_induction_on with
  | _ n ih =>
    intro a
    rw [natChars_eq]
    split
    · next h =>
      simp [List.foldl, digitChar_toNat_sub n h]
    · next h =>
      have hlt : n / 10 < n := Nat.div_lt_self (by omega) (by omega)
      rw [List.foldl_append, ih (n / 10) hlt a]
      simp only [List.length_append, List.length_singleton, List.foldl]
      rw [digitChar_toNat_sub (n % 10) (Nat.mod_lt n (by omega))]
      have hdm := Nat.div_add_mod n 10
      ring_nf
      omega

theorem digitsToNat_natChars (n : Nat) : digitsToNat (natChars n) = n := by
  have h := natChars_foldl n 0
  simpa [digitsToNat] using h

theorem natChars_ne_nil (n : Nat) : natChars n ≠ [] := by
  rw [natChars_eq]
  split <;> simp

theorem natChars_isDigit (n : Nat) : ∀ c ∈ natChars n, c.isDigit = true := by
  induction n using Nat.strong_induction_on with
  | _ n ih =>
    intro c hc
    rw [natChars_eq] at hc
    split at hc
    · next h =>
      simp at hc
      subst hc
      exact digitChar_isDigit n h
    · next h =>
      have hlt : n / 10 < n := Nat.div_lt_self (by omega) (by omega)
      rcases List.mem_append.mp hc with h1 | h2
      · exact ih (n / 10) hlt c h1
      · simp at h2
        subst h2
        exact digitChar_isDigit (n % 10) (Nat.mod_lt n (by omega))

theorem isDigit_ne_lt {c : Char} (h : c.isDigit = true) : c ≠ '<' := by
  intro hc
  subst hc
  simp [Char.isDigit] at h

/-! ### Priority mapping (`src/types.ts` enum `Priority`,
`src/linear-client.ts` lines 132-141) -/

namespace Priority

def Urgent : Nat := 0
def High : Nat := 1
def Medium : Nat := 2
def Low : Nat := 3
def NoPriority : Nat := 4

end Priority

/-- `s.toLowerCase()` on text, character by character. -/
def lowerText (s : Text) : Text := s.map Char.toLower

/-- A value produced by the plain-object lookup
`priorityMap[key] ?? Priority.Medium`: either a priority ordinal, or a
non-nullish member inherited from `Object.prototype` — the prototype of
an object literal — which the `??` default does not replace. -/
inductive PriorityValue where
  | ord (n : Nat)
  | inheritedMember (name : Text)
deriving DecidableEq, Repr

/-- The property names a plain object literal inherits from
`Object.prototype`; looking any of them up on `priorityMap` returns a
non-nullish function or object instead of `undefined`. -/
def objectPrototypeMembers : List Text :=
  ["constructor".toList, "hasOwnProperty".toList, "isPrototypeOf".toList,
   "propertyIsEnumerable".toList, "toLocaleString".toList,
   "toString".toList, "valueOf".toList, "__proto__".toList,
   "__defineGetter__".toList, "__defineSetter__".toList,
   "__lookupGetter__".toList, "__lookupSetter__".toList]

/-- `priorityMap[issue.priority.toLowerCase()] ?? Priority.Medium` from
`LinearClient.createIssue`: the four own keys are found first; otherwise
the lookup walks the prototype chain, so a key matching an
`Object.prototype` member name yields that non-nullish inherited member
and the `??` default applies only when the lookup is truly undefined. -/
def priorityFor (p : Text) : PriorityValue :=
  let key := lowerText p
  if key = "urgent".toList then .ord Priority.Urgent
  else if key = "high".toList then .ord Priority.High
  else if key = "medium".toList then .ord Priority.Medium
  else if key = "low".toList then .ord Priority.Low
  else if key ∈ objectPrototypeMembers then .inheritedMember key
  else .ord Priority.Medium

/-- Counterexample to C7 as stated: "constructor" and "__proto__" are
not among the four levels, yet the lookup finds the inherited
`Object.prototype` member, so the program does not yield ordinal 2. -/
theorem priority_prototype_leak_c7_counterexample :
    priorityFor "constructor".toList
      = PriorityValue.inheritedMember "constructor".toList ∧
    priorityFor "constructor".toList ≠ PriorityValue.ord Priority.Medium ∧
    priorityFor "__proto__".toList ≠ PriorityValue.ord Priority.Medium := by
  refine ⟨by decide, by decide, by decide⟩

/-- C7 amended: the four textual levels map case-insensitively onto the
strictly increasing ordinals urgent=0, high=1, medium=2, low=3, ordinal
4 stays unused, and every other input string maps to ordinal 2 unless
its lowercased form is a property name inherited from
`Object.prototype`, in which case the plain-object lookup returns that
non-nullish inherited member instead of the medium default. -/
theorem priority_mapping_c7_amended :
    (∀ p : Text, lowerText p = "urgent".toList →
      priorityFor p = PriorityValue.ord 0) ∧
    (∀ p : Text, lowerText p = "high".toList →
      priorityFor p = PriorityValue.ord 1) ∧
    (∀ p : Text, lowerText p = "medium".toList →
      priorityFor p = PriorityValue.ord 2) ∧
    (∀ p : Text, lowerText p = "low".toList →
      priorityFor p = PriorityValue.ord 3) ∧
    (∀ p : Text, lowerText p ≠ "urgent".toList → lowerText p ≠ "high".toList →
      lowerText p ≠ "medium".toList → lowerText p ≠ "low".toList →
      lowerText p ∉ objectPrototypeMembers →
      priorityFor p = PriorityValue.ord 2) ∧
    (∀ p : Text, lowerText p ≠ "urgent".toList → lowerText p ≠ "high".toList →
      lowerText p ≠ "medium".toList → lowerText p ≠ "low".toList →
      lowerText p ∈ objectPrototypeMembers →
      priorityFor p = PriorityValue.inheritedMember (lowerText p)) ∧
    (Priority.Urgent < Priority.High ∧ Priority.High < Priority.Medium ∧
      Priority.Medium < Priority.Low ∧ Priority.Low < Priority.NoPriority) ∧
    (∀ p : Text, priorityFor p ≠ PriorityValue.ord Priority.NoPriority) := by
  refine ⟨?_, ?_, ?_, ?_, ?_, ?_, by decide, ?_⟩ <;>
    intro p <;>
    simp only [priorityFor, Priority.Urgent, Priority.High, Priority.Medium,
      Priority.Low, Priority.NoPriority]
  · intro h; simp [h]
  · intro h
    have : lowerText p ≠ "urgent".toList := by rw [h]; decide
    simp [h, this]
  · intro h
    have h1 : lowerText p ≠ "urgent".toList := by rw [h]; decide
    have h2 : lowerText p ≠ "high".toList := by rw [h]; decide
    simp [h, h1, h2]
  · intro h
    have h1 : lowerText p ≠ "urgent".toList := by rw [h]; decide
    have h2 : lowerText p ≠ "high".toList := by rw [h]; decide
    have h3 : lowerText p ≠ "medium".toList := by rw [h]; decide
    simp [h, h1, h2, h3]
  · intro h1 h2 h3 h4 h5
    have g1 : lowerText p ≠ ['u', 'r', 'g', 'e', 'n', 't'] := by simpa using h1
    have g2 : lowerText p ≠ ['h', 'i', 'g', 'h'] := by simpa using h2
    have g3 : lowerText p ≠ ['m', 'e', 'd', 'i', 'u', 'm'] := by simpa using h3
    have g4 : lowerText p ≠ ['l', 'o', 'w'] := by simpa using h4
    simp [g1, g2, g3, g4, h5]
  · intro h1 h2 h3 h4 h5
    have g1 : lowerText p ≠ ['u', 'r', 'g', 'e', 'n', 't'] := by simpa using h1
    have g2 : lowerText p ≠ ['h', 'i', 'g', 'h'] := by simpa using h2
    have g3 : lowerText p ≠ ['m', 'e', 'd', 'i', 'u', 'm'] := by simpa using h3
    have g4 : lowerText p ≠ ['l', 'o', 'w'] := by simpa using h4
    simp [g1, g2, g3, g4, h5]
  · split
    · decide
    · split
      · decide
      · split
        · decide
        · split
          · decide
          · split
            · simp
            · decide

/-- Witness for the amended C7 at concrete inputs: an upper-case level,
an unknown word defaulting to medium, and the leaking "Constructor"
key. -/
theorem priority_mapping_c7_amended_witness :
    priorityFor "URGENT".toList = PriorityValue.ord 0 ∧
    priorityFor "Banana".toList = PriorityValue.ord 2 ∧
    priorityFor "Constructor".toList
      = PriorityValue.inheritedMember "constructor".toList :=
  ⟨priority_mapping_c7_amended.1 _ (by decide),
   priority_mapping_c7_amended.2.2.2.2.1 _ (by decide) (by decide)
     (by decide) (by decide) (by decide),
   (priority_mapping_c7_amended.2.2.2.2.2.1 "Constructor".toList
     (by decide) (by decide) (by decide) (by decide) (by decide)).trans
     (by decide)⟩

/-! ### Idempotency markers and their extraction
(`src/linear-client.ts` lines 150-156, `dist/index.js` lines 99-122) -/

/-- The fixed prefix of the hidden comment marker. -/
def markerOpen : Text := "<!-- gitlin:comment:".toList

/-- The closing fragment of a hidden marker. -/
def markerClose : Text := " -->".toList

/-- The hidden annotation appended per synchronized comment:
`<!-- gitlin:comment:<id> -->`. -/
def commentMarker (n : Nat) : Text :=
  markerOpen ++ natChars n ++ markerClose

/-- `haystack.includes(pat)` / the tracker's `description contains`
filter: substring containment as a left-to-right scan. -/
def containsSeq (pat : Text) : Text → Bool
  | [] => pat.isEmpty
  | c :: rest => pat.isPrefixOf (c :: rest) || containsSeq pat rest

theorem containsSeq_spec (pat s : Text) :
    containsSeq pat s = true ↔ pat <:+: s := by
  induction s with
  | nil =>
    simp [containsSeq, List.isEmpty_iff, List.infix_nil]
  | cons c rest ih =>
    simp [containsSeq, List.isPrefixOf_iff_prefix, ih, List.infix_cons_iff]

/-- `description.matchAll(/<!-- gitlin:comment:(\d+) -->/g)` as in
`Gitlin.getProcessedCommentIds`: a left-to-right non-overlapping scan
that, at each position, matches the literal prefix, then a maximal
non-empty digit run, then the literal close, collects the parsed id and
resumes after the match; otherwise advances one character. -/
def scanGo : Nat → Text → List Nat
  | 0, _ => []
  | _ + 1, [] => []
  | fuel + 1, c :: rest =>
    if markerOpen.isPrefixOf (c :: rest) then
      if (((c :: rest).drop markerOpen.length).takeWhile
            Char.isDigit).isEmpty = false
          ∧ markerClose.isPrefixOf (((c :: rest).drop
              markerOpen.length).dropWhile Char.isDigit) then
        digitsToNat (((c :: rest).drop markerOpen.length).takeWhile
            Char.isDigit)
          :: scanGo fuel ((((c :: rest).drop markerOpen.length).dropWhile
              Char.isDigit).drop markerClose.length)
      else
        scanGo fuel rest
    else
      scanGo fuel rest

/-- The extraction entry point; the fuel bound `length + 1` always
suffices since every step consumes at least one character. -/
def scanCommentIds (s : Text) : List Nat := scanGo (s.length + 1) s

theorem scanGo_congr : ∀ (f : Nat), ∀ (g : Nat) (s : Text),
    s.length < f → s.length < g → scanGo f s = scanGo g s := by
  intro f
  induction f with
  | zero => intro g s h1 h2; omega
  | succ f ih =>
    intro g s h1 h2
    cases g with
    | zero => omega
    | succ g =>
      cases s with
      | nil => rfl
      | cons c rest =>
        simp only [List.length_cons] at h1 h2
        simp only [scanGo]
        split
        · split
          · congr 1
            have hA : (((c :: rest).drop markerOpen.length)).length
                = rest.length + 1 - markerOpen.length := by
              simpa using List.length_drop markerOpen.length (c :: rest)
            have hB := (List.dropWhile_sublist (l :=
              (c :: rest).drop markerOpen.length) Char.isDigit).length_le
            have hC : ((((c :: rest).drop markerOpen.length).dropWhile
                  Char.isDigit).drop markerClose.length).length
                = (((c :: rest).drop markerOpen.length).dropWhile
                  Char.isDigit).length - markerClose.length := by
              rw [List.length_drop]
            have hmo : markerOpen.length = 20 := by decide
            exact ih g _ (by omega) (by omega)
          · exact ih g rest (by omega) (by omega)
        · exact ih g rest (by omega) (by omega)

theorem scanCommentIds_cons (c : Char) (rest : Text) :
    scanCommentIds (c :: rest) =
      if markerOpen.isPrefixOf (c :: rest) then
        if (((c :: rest).drop markerOpen.length).takeWhile
              Char.isDigit).isEmpty = false
            ∧ markerClose.isPrefixOf (((c :: rest).drop
                markerOpen.length).dropWhile Char.isDigit) then
          digitsToNat (((c :: rest).drop markerOpen.length).takeWhile
              Char.isDigit)
            :: scanCommentIds ((((c :: rest).drop
                markerOpen.length).dropWhile Char.isDigit).drop
                markerClose.length)
        else
          scanCommentIds rest
      else
        scanCommentIds rest := by
  show scanGo (rest.length + 1 + 1) (c :: rest) = _
  rw [scanGo]
  split
  · split
    · congr 1
      have hA : (((c :: rest).drop markerOpen.length)).length
          = rest.length + 1 - markerOpen.length := by
        simpa using List.length_drop markerOpen.length (c :: rest)
      have hB := (List.dropWhile_sublist (l :=
        (c :: rest).drop markerOpen.length) Char.isDigit).length_le
      have hC : ((((c :: rest).drop markerOpen.length).dropWhile
            Char.isDigit).drop markerClose.length).length
          = (((c :: rest).drop markerOpen.length).dropWhile
            Char.isDigit).length - markerClose.length := by
        rw [List.length_drop]
      have hmo : markerOpen.length = 20 := by decide
      exact scanGo_congr _ _ _ (by omega) (by omega)
    · rfl
  · rfl

/-- Scanning skips over text that contains no opening angle bracket: no
match of the marker pattern can start inside it. -/
theorem scanCommentIds_skip (s₁ s₂ : Text) (h : ∀ c ∈ s₁, c ≠ '<') :
    scanCommentIds (s₁ ++ s₂) = scanCommentIds s₂ := by
  induction s₁ with
  | nil => rfl
  | cons c rest ih =>
    have hc : c ≠ '<' := h c (by simp)
    have hpre : markerOpen.isPrefixOf (c :: (rest ++ s₂)) = false := by
      have : markerOpen = '<' :: "!-- gitlin:comment:".toList := by
        decide
      rw [this, List.isPrefixOf]
      simp [Ne.symm hc]
    rw [List.cons_append, scanCommentIds_cons, if_neg (by simp [hpre])]
    exact ih (fun c hmem => h c (by simp [hmem]))

/-- Scanning a marker at the head of the text extracts exactly its id and
resumes right after the marker. -/
theorem scanCommentIds_marker (n : Nat) (rest : Text) :
    scanCommentIds (commentMarker n ++ rest) = n :: scanCommentIds rest := by
  have hshape : commentMarker n ++ rest
      = markerOpen ++ (natChars n ++ (markerClose ++ rest)) := by
    simp [commentMarker]
  have hpre : markerOpen.isPrefixOf (commentMarker n ++ rest)
      = true := by
    rw [hshape]
    exact List.isPrefixOf_iff_prefix.mpr (List.prefix_append _ _)
  have hdrop : (commentMarker n ++ rest).drop markerOpen.length
      = natChars n ++ (markerClose ++ rest) := by
    rw [hshape, List.drop_left]
  have htake : (natChars n ++ (markerClose ++ rest)).takeWhile Char.isDigit
      = natChars n := by
    rw [List.takeWhile_append]
    have hself : (natChars n).takeWhile Char.isDigit = natChars n :=
      List.takeWhile_eq_self_iff.mpr (natChars_isDigit n)
    rw [if_pos (by rw [hself])]
    have : (markerClose ++ rest).takeWhile Char.isDigit = [] := by
      have : markerClose ++ rest = ' ' :: ("-->".toList ++ rest) := by
        simp [markerClose]
      rw [this, List.takeWhile_cons, if_neg (by decide)]
    rw [this, List.append_nil]
  have hdropw : (natChars n ++ (markerClose ++ rest)).dropWhile Char.isDigit
      = markerClose ++ rest := by
    rw [List.dropWhile_append]
    have hnil : (natChars n).dropWhile Char.isDigit = [] := by
      rw [List.dropWhile_eq_nil_iff]
      exact fun c hmem => natChars_isDigit n c hmem
    rw [if_pos (by rw [hnil]; rfl)]
    have : markerClose ++ rest = ' ' :: ("-->".toList ++ rest) := by
      simp [markerClose]
    rw [this, List.dropWhile_cons, if_neg (by decide)]
  obtain ⟨c, t, hct⟩ : ∃ c t, commentMarker n ++ rest = c :: t := by
    cases hx : commentMarker n ++ rest with
    | nil =>
      exfalso
      have : commentMarker n = [] ∧ rest = [] := by
        simpa using hx
      simp [commentMarker, markerOpen] at this
    | cons c t => exact ⟨c, t, rfl⟩
  rw [hct] at hpre hdrop ⊢
  rw [scanCommentIds_cons, if_pos hpre]
  simp only [hdrop, htake, hdropw]
  rw [if_pos ⟨by simp [natChars_ne_nil n], List.isPrefixOf_iff_prefix.mpr
    (List.prefix_append _ _)⟩]
  rw [List.drop_left, digitsToNat_natChars]

/-- Scanning a block of concatenated markers extracts exactly the embedded
ids, in order, then continues with the remainder. -/
theorem scanCommentIds_block (ids : List Nat) (rest : Text) :
    scanCommentIds (ids.flatMap commentMarker ++ rest)
      = ids ++ scanCommentIds rest := by
  induction ids with
  | nil => simp
  | cons n ns ih =>
    rw [List.flatMap_cons, List.append_assoc, scanCommentIds_marker,
      List.cons_append, ih]

/-! ### Data model (`src/types.ts`) -/

/-- Origin channel of a collected comment. -/
inductive CommentType where
  | issue
  | review
deriving DecidableEq, Repr

/-- A collected discussion unit (`CommentData`). -/
structure CommentData where
  body : Text
  id : Nat
  htmlUrl : Text
  type : CommentType
deriving DecidableEq, Repr

/-- A candidate item produced by the extraction collaborator
(`ParsedIssue`, validated by `ParsedIssueSchema`). -/
structure ParsedIssue where
  title : Text
  description : Text
  priority : Text
  effort : Option Text := none
  labels : Option (List Text) := none
  assignee : Option Text := none
  dependencies : Option (List Nat) := none
deriving DecidableEq, Repr

/-- The configuration fields `LinearClient` reads. -/
structure GitlinConfig where
  linearTeamId : Text
  gitlinAutoTag : Option Text := none
  labelMapping : Option (List (Text × List Text)) := none
deriving DecidableEq, Repr

/-- A Linear issue as returned by `createIssue` (`payload.issue`). -/
structure CreatedIssue where
  id : Text
  identifier : Text
  url : Text
deriving DecidableEq, Repr

/-- A Linear issue as stored in the tracker and returned by
`findIssuesByPRUrl`; `description` is nullable on the wire. -/
structure TrackerIssue where
  title : Text
  description : Option Text
  issueId : Text
  url : Text
  priority : PriorityValue := PriorityValue.ord 0
  labelIds : Option (List Text) := none
  assigneeId : Option Text := none
deriving DecidableEq, Repr

/-- A Linear user as returned by `client.users()`. -/
structure UserData where
  userId : Text
  email : Option Text := none
  name : Option Text := none
  displayName : Option Text := none
deriving DecidableEq, Repr

/-- Entry of `CreateIssuesResult.issues`. -/
structure IssueSummary where
  title : Text
  linearId : Text
  url : Text
deriving DecidableEq, Repr

/-- `CreateIssuesResult` from `src/types.ts`. -/
structure CreateIssuesResult where
  success : Bool
  issues : List IssueSummary
  errors : List Text
deriving DecidableEq, Repr

/-! ### JS `Map` and `Set` as association / insertion-ordered lists -/

/-- `Map.get`: the value stored at a key (each key occurs at most once). -/
def mapGet (m : List (Text × Text)) (k : Text) : Option Text :=
  (m.find? (fun p => p.1 = k)).map (fun p => p.2)

/-- `Map.set`: replace the value at an existing key, else append. -/
def mapSet (m : List (Text × Text)) (k v : Text) : List (Text × Text) :=
  if m.any (fun p => p.1 = k) then
    m.map (fun p => if p.1 = k then (k, v) else p)
  else m ++ [(k, v)]

/-- `Map<number, string>.get` for the index-to-created-id map. -/
def mapGetNat (m : List (Nat × Text)) (k : Nat) : Option Text :=
  (m.find? (fun p => p.1 = k)).map (fun p => p.2)

/-- `Map<number, string>.set` for the index-to-created-id map. -/
def mapSetNat (m : List (Nat × Text)) (k : Nat) (v : Text) :
    List (Nat × Text) :=
  if m.any (fun p => p.1 = k) then
    m.map (fun p => if p.1 = k then (k, v) else p)
  else m ++ [(k, v)]

/-- `Set.add` on text: insertion-ordered, deduplicating. -/
def setAdd (s : List Text) (x : Text) : List Text :=
  if x ∈ s then s else s ++ [x]

/-! ### Collaborator oracles and run state -/

/-- Outcome of one `client.createIssue` API call. -/
inductive CreateOutcome where
  | throwErr (msg : Text)
  | apiFail
  | ok (issue : CreatedIssue)
deriving DecidableEq, Repr

/-- Responses of the Linear collaborator for one run; `Except.error`
models a call that fails at the network/auth level. -/
structure LinearEnv where
  labelListing : Except Text (List (Text × Text))
  createLabelResult : Except Text (Option Text)
  usersResult : Except Text (List UserData)
  createOutcome : Nat → CreateOutcome

/-- Mutable state of one run: the `LinearClient` label cache, the
tracker's stored issues, and the count of creation calls made so far
(the key into `createOutcome`). -/
structure LinearState where
  labelCache : Option (List (Text × Text))
  tracker : List TrackerIssue
  createCalls : Nat

/-- `refreshLabelCache`: `new Map(labels.nodes.map(l => [l.name.toLowerCase(), l.id]))`. -/
def buildLabelCache (ls : List (Text × Text)) : List (Text × Text) :=
  ls.foldl (fun m p => mapSet m (lowerText p.1) p.2) []

/-- `if (!this.labelCache) await this.refreshLabelCache()`: produce the
cache, fetching the label listing on first use; a listing failure
propagates. -/
def ensureLabelCache (env : LinearEnv) (st : LinearState) :
    Except Text (List (Text × Text) × LinearState) :=
  match st.labelCache with
  | some cache => .ok (cache, st)
  | none =>
    match env.labelListing with
    | .error e => .error e
    | .ok ls =>
      let cache := buildLabelCache ls
      .ok (cache, { st with labelCache := some cache })

/-- `applyLabelMapping` from `src/linear-client.ts` lines 106-121. -/
def applyLabelMapping (cfg : GitlinConfig) (labels : List Text) :
    List Text :=
  match cfg.labelMapping with
  | none => labels
  | some table =>
    let expanded := labels.foldl setAdd []
    labels.foldl (fun s label =>
      match (table.find? (fun p => p.1 = lowerText label)).map
          (fun p => p.2) with
      | some mapped => mapped.foldl setAdd s
      | none => s) expanded

/-- The fixed provenance label: `config.gitlinAutoTag || "gitlin-created"`. -/
def autoTagFor (cfg : GitlinConfig) : Text :=
  match cfg.gitlinAutoTag with
  | some t => if t.isEmpty then "gitlin-created".toList else t
  | none => "gitlin-created".toList

/-- The label-resolution loop of `createIssue` (lines 176-209): look each
name up in the cache, lazily auto-create the provenance label (a creation
failure is caught and logged), and collect the distinct resolved ids. -/
def resolveLabelIds (env : LinearEnv) (autoTag : Text) :
    List Text → List (Text × Text) → List Text →
      List (Text × Text) × List Text
  | [], cache, acc => (cache, acc)
  | labelName :: rest, cache, acc =>
    let found := mapGet cache (lowerText labelName)
    let step : Option Text × List (Text × Text) :=
      match found with
      | some lid => (some lid, cache)
      | none =>
        if labelName = autoTag then
          match env.createLabelResult with
          | .error _ => (none, cache)
          | .ok optId =>
            match optId with
            | some lid => (some lid, mapSet cache (lowerText labelName) lid)
            | none => (none, cache)
        else (none, cache)
    match step with
    | (some lid, cache') => resolveLabelIds env autoTag rest cache' (setAdd acc lid)
    | (none, cache') => resolveLabelIds env autoTag rest cache' acc

/-- The assignee-resolution block of `createIssue` (lines 211-234): skip
empty or "unassigned" hints; a user-directory failure is caught and the
item proceeds unassigned; otherwise the first case-insensitive match on
email, name or display name wins. -/
def resolveAssignee (env : LinearEnv) (assignee : Option Text) :
    Option Text :=
  match assignee with
  | none => none
  | some a =>
    if a.isEmpty then none
    else if lowerText a = "unassigned".toList then none
    else
      match env.usersResult with
      | .error _ => none
      | .ok users =>
        (users.find? (fun u =>
          (match u.email with
           | some e => lowerText e = lowerText a
           | none => false) ||
          (match u.name with
           | some nm => lowerText nm = lowerText a
           | none => false) ||
          (match u.displayName with
           | some d => lowerText d = lowerText a
           | none => false))).map (fun u => u.userId)

/-- The persisted description built by `createIssue` (lines 143-160):
item description, then the related-PR line, then one hidden marker per
collected comment id (the full collected set), then the effort note. -/
def buildDescription (descr : Text) (prUrl : Option Text)
    (comments : Option (List CommentData)) (effort : Option Text) : Text :=
  let d1 := match prUrl with
    | some u =>
      if u.isEmpty then descr
      else descr ++ "\n\n---\n\n**Related PR:** ".toList ++ u
    | none => descr
  let d2 := match comments with
    | some cs =>
      if cs.isEmpty then d1
      else d1 ++ "\n\n".toList ++ cs.flatMap (fun c => commentMarker c.id)
    | none => d1
  match effort with
  | some e =>
    if e.isEmpty then d2
    else d2 ++ "\n**Estimated Effort:** ".toList ++ e
  | none => d2

/-- The free-text dependency note of lines 255-263. -/
def dependencyNote : Text :=
  ("\n\n**Dependencies:** This issue depends on other issues"
    ++ " being completed first.").toList

/-- Value of the local `description` variable after the creation call
(lines 250-263): the note is appended only there, after the issue has
already been persisted, so it never reaches the tracker. -/
def descriptionAfterCreate (description : Text)
    (deps : Option (List Nat)) (createdIssues : List (Nat × Text)) : Text :=
  match deps with
  | none => description
  | some ds =>
    if ds.isEmpty then description
    else
      let depIds := ds.filterMap (fun idx => mapGetNat createdIssues idx)
      if depIds.isEmpty then description
      else description ++ dependencyNote

/-- The tail of `createIssue` once the label cache is available: resolve
labels and assignee, then call the tracker's creation endpoint; on
success the issue, with the description as built *before* the creation
call, is persisted to the tracker. -/
def finishCreate (cfg : GitlinConfig) (env : LinearEnv)
    (issue : ParsedIssue) (description : Text)
    (cache : List (Text × Text)) (st1 : LinearState) :
    Except Text CreatedIssue × LinearState :=
  let resolved := resolveLabelIds env (autoTagFor cfg)
    ((match issue.labels with
      | some ls => applyLabelMapping cfg ls
      | none => []) ++ [autoTagFor cfg]) cache []
  let assigneeId := resolveAssignee env issue.assignee
  match env.createOutcome st1.createCalls with
  | .throwErr e =>
    (.error e, { labelCache := some resolved.1, tracker := st1.tracker,
                 createCalls := st1.createCalls + 1 })
  | .apiFail =>
    (.error "Failed to create Linear issue".toList,
      { labelCache := some resolved.1, tracker := st1.tracker,
        createCalls := st1.createCalls + 1 })
  | .ok created =>
    (.ok created,
      { labelCache := some resolved.1
        tracker := st1.tracker ++
          [{ title := issue.title
             description := some description
             issueId := created.id
             url := created.url
             priority := priorityFor issue.priority
             labelIds := if resolved.2.isEmpty then none else some resolved.2
             assigneeId := assigneeId }]
        createCalls := st1.createCalls + 1 })

/-- `LinearClient.createIssue` (lines 126-266): build the description,
ensure the label cache, then resolve and create. -/
def createIssue (cfg : GitlinConfig) (env : LinearEnv) (st : LinearState)
    (issue : ParsedIssue) (createdIssues : List (Nat × Text))
    (prUrl : Option Text) (comments : Option (List CommentData)) :
    Except Text CreatedIssue × LinearState :=
  match ensureLabelCache env st with
  | .error e => (.error e, st)
  | .ok (cache, st1) =>
    finishCreate cfg env issue
      (buildDescription issue.description prUrl comments issue.effort)
      cache st1

/-- Error string recorded by `createIssues` for a failed item. -/
def failMessage (title : Text) (e : Text) : Text :=
  "Failed to create issue: ".toList ++ title ++ ": ".toList ++ e

/-- The sequential loop of `LinearClient.createIssues` (lines 40-81):
process items in original order, record a summary per success and an
error string per failure, update the index-to-id map on success, and
never stop early. -/
def createIssuesGo (cfg : GitlinConfig) (env : LinearEnv)
    (prUrl : Option Text) (comments : Option (List CommentData)) :
    List ParsedIssue → Nat → List (Nat × Text) → CreateIssuesResult →
      LinearState → CreateIssuesResult × LinearState
  | [], _, _, acc, st => (acc, st)
  | issue :: rest, i, created, acc, st =>
    match createIssue cfg env st issue created prUrl comments with
    | (.ok ci, st') =>
      createIssuesGo cfg env prUrl comments rest (i + 1)
        (mapSetNat created i ci.id)
        { acc with issues :=
            acc.issues ++ [⟨issue.title, ci.identifier, ci.url⟩] } st'
    | (.error e, st') =>
      createIssuesGo cfg env prUrl comments rest (i + 1) created
        { acc with
          errors := acc.errors ++ [failMessage issue.title e]
          success := false } st'

/-- `LinearClient.createIssues`: run the loop from an empty result. -/
def createIssues (cfg : GitlinConfig) (env : LinearEnv)
    (issues : List ParsedIssue) (prUrl : Option Text)
    (comments : Option (List CommentData)) (st : LinearState) :
    CreateIssuesResult × LinearState :=
  createIssuesGo cfg env prUrl comments issues 0 []
    { success := true, issues := [], errors := [] } st

/-! ### Dedup lookups and the run pipeline
(`dist/index.js` lines 96-185, `src/index.ts` lines 299-328) -/

/-- The thread URL `https://github.com/<owner>/<repo>/pull/<number>`. -/
def prUrlFor (owner repo : Text) (n : Nat) : Text :=
  "https://github.com/".toList ++ owner ++ "/".toList ++ repo
    ++ "/pull/".toList ++ natChars n

/-- The thread-identity annotation `isPRProcessed` searches for:
`<!-- gitlin:pr:<owner>/<repo>/pull/<number> -->`. -/
def prMarkerText (owner repo : Text) (n : Nat) : Text :=
  "<!-- gitlin:pr:".toList ++ owner ++ "/".toList ++ repo
    ++ "/pull/".toList ++ natChars n ++ " -->".toList

/-- `LinearClient.findIssuesByPRUrl`: query the tracker for issues whose
description contains the PR URL; `queryError` models the query throwing
at the network level. -/
def findIssuesByPRUrl (queryError : Option Text)
    (tracker : List TrackerIssue) (prUrl : Text) :
    Except Text (List TrackerIssue) :=
  match queryError with
  | some e => .error e
  | none =>
    .ok (tracker.filter (fun t =>
      match t.description with
      | some d => containsSeq prUrl d
      | none => false))

/-- `Gitlin.getProcessedCommentIds` (`dist/index.js` lines 99-122):
collect every comment id embedded in a matching issue's description; a
query failure is caught and yields the empty set. -/
def getProcessedCommentIds (queryError : Option Text)
    (tracker : List TrackerIssue) (prUrl : Text) : List Nat :=
  match findIssuesByPRUrl queryError tracker prUrl with
  | .error _ => []
  | .ok issues =>
    issues.flatMap (fun t =>
      match t.description with
      | some d => scanCommentIds d
      | none => [])

/-- `Gitlin.isPRProcessed` (`src/index.ts` lines 302-328): true when a
matching issue's description contains the thread-identity annotation; a
query failure is caught and yields false. -/
def isPRProcessed (queryError : Option Text) (tracker : List TrackerIssue)
    (owner repo : Text) (n : Nat) : Bool :=
  match findIssuesByPRUrl queryError tracker (prUrlFor owner repo n) with
  | .error _ => false
  | .ok issues =>
    issues.any (fun t =>
      match t.description with
      | some d => containsSeq (prMarkerText owner repo n) d
      | none => false)

/-- Outcome of one `processComment` run on a pull-request thread, one
constructor per return path of `dist/index.js` lines 126-185. -/
inductive RunResult where
  | noComments
  | alreadyProcessed (total : Nat)
  | fatal (e : Text)
  | noActionable
  | completed (r : CreateIssuesResult)
deriving DecidableEq, Repr

/-- Per-run collaborator responses for the pipeline. -/
structure RunEnv where
  allComments : List CommentData
  queryError : Option Text
  parsed : Except Text (List ParsedIssue)
  linear : LinearEnv

/-- `Gitlin.processComment`, pull-request branch (`dist/index.js` lines
126-185): collect comments, filter against the processed-id set, short
circuit when nothing is new, otherwise fetch labels, invoke the
extraction collaborator and create the batch.  The returned flag records
whether the extraction collaborator was invoked. -/
def processCommentPR (cfg : GitlinConfig) (env : RunEnv)
    (owner repo : Text) (pr : Nat) (st : LinearState) :
    RunResult × Bool × LinearState :=
  let allComments := env.allComments
  if allComments.isEmpty then (.noComments, false, st)
  else
    let prUrl := prUrlFor owner repo pr
    let processedIds := getProcessedCommentIds env.queryError st.tracker prUrl
    let comments := allComments.filter (fun c => !(processedIds.contains c.id))
    if comments.isEmpty then (.alreadyProcessed allComments.length, false, st)
    else
      match ensureLabelCache env.linear st with
      | .error e => (.fatal e, false, st)
      | .ok (_, st1) =>
        match env.parsed with
        | .error e => (.fatal e, true, st1)
        | .ok issues =>
          if issues.isEmpty then (.noActionable, true, st1)
          else
            let out := createIssues cfg env.linear issues (some prUrl)
              (if comments.isEmpty then none else some comments) st1
            (.completed out.1, true, out.2)

/-- `Gitlin.addReaction` (`src/index.ts` lines 465-490): the reaction
call is wrapped in try/catch, so the method itself never fails. -/
def addReaction (reactionResult : Except Text Unit) : Except Text Unit :=
  match reactionResult with
  | .ok _ => .ok ()
  | .error _ => .ok ()

/-! ### Comment collection (`src/index.ts` lines 208-297) -/

/-- A raw general (issue) comment from the REST listing. -/
structure RawComment where
  id : Nat
  body : Text
  htmlUrl : Text
deriving DecidableEq, Repr

/-- A raw location-anchored (review) comment from the REST listing. -/
structure ReviewRawComment where
  id : Nat
  body : Text
  htmlUrl : Text
  path : Text
  line : Nat
deriving DecidableEq, Repr

/-- One review-thread node of the GraphQL resolution query: the
database ids of its comments and its resolution flag. -/
structure ReviewThread where
  commentIds : List Nat
  isResolved : Bool
deriving DecidableEq, Repr

/-- The resolution map (`databaseId -> isResolved`) built from the
GraphQL response; `if (comment.databaseId)` skips falsy (zero) ids, and a
later entry for the same id overwrites an earlier one. -/
def buildResolutionMap (threads : List ReviewThread) : Nat → Option Bool :=
  threads.foldl (fun m t =>
    t.commentIds.foldl (fun m cid =>
      if cid ≠ 0 then fun k => if k = cid then some t.isResolved else m k
      else m) m)
    (fun _ => none)

/-- The literal trigger phrase excluded from general comments. -/
def triggerPhrase : Text := "/create-issues".toList

/-- `Gitlin.fetchAllPRComments` on already-fetched data: general comments
minus the trigger invocation, then review comments whose thread is not
marked resolved, each prefixed with its file and line. -/
def fetchAllPRComments (issueComments : List RawComment)
    (reviewComments : List ReviewRawComment)
    (threads : List ReviewThread) : List CommentData :=
  let resolutionMap := buildResolutionMap threads
  let fromIssues := issueComments.filterMap (fun c =>
    if !c.body.isEmpty && !(containsSeq triggerPhrase c.body) then
      some { body := c.body, id := c.id, htmlUrl := c.htmlUrl,
             type := CommentType.issue }
    else none)
  let fromReviews := reviewComments.filterMap (fun c =>
    let isResolved := (resolutionMap c.id).getD false
    if !c.body.isEmpty && !isResolved then
      some { body := "[".toList ++ c.path ++ ":".toList ++ natChars c.line
               ++ "] ".toList ++ c.body
             id := c.id, htmlUrl := c.htmlUrl,
             type := CommentType.review }
    else none)
  fromIssues ++ fromReviews

/-- The GraphQL query fetches only the first 100 review threads and the
first 10 comments of each (`reviewThreads(first: 100)`,
`comments(first: 10)`): the server truncates the thread data. -/
def truncateThreads (threads : List ReviewThread) : List ReviewThread :=
  (threads.take 100).map (fun t => { t with commentIds := t.commentIds.take 10 })

/-! ### Batch accounting (claim C2) -/

theorem createIssuesGo_length (cfg : GitlinConfig) (env : LinearEnv)
    (prUrl : Option Text) (comments : Option (List CommentData)) :
    ∀ (issues : List ParsedIssue) (i : Nat) (created : List (Nat × Text))
      (acc : CreateIssuesResult) (st : LinearState),
      (createIssuesGo cfg env prUrl comments issues i created acc st).1.issues.length
        + (createIssuesGo cfg env prUrl comments issues i created acc st).1.errors.length
        = acc.issues.length + acc.errors.length + issues.length := by
  intro issues
  induction issues with
  | nil =>
    intro i created acc st
    simp [createIssuesGo]
  | cons issue rest ih =>
    intro i created acc st
    rw [createIssuesGo]
    rcases h : createIssue cfg env st issue created prUrl comments with ⟨res, st'⟩
    cases res with
    | ok ci =>
      simp only []
      rw [ih]
      simp
      omega
    | error e =>
      simp only []
      rw [ih]
      simp
      omega

/-- C2: for every batch given to `createIssues`, the returned result has
`issues.length + errors.length = batch.length`: each item is attempted
exactly once and contributes exactly one entry, and a failure never stops
the loop. -/
theorem createIssues_batch_length_c2 (cfg : GitlinConfig) (env : LinearEnv)
    (issues : List ParsedIssue) (prUrl : Option Text)
    (comments : Option (List CommentData)) (st : LinearState) :
    (createIssues cfg env issues prUrl comments st).1.issues.length
      + (createIssues cfg env issues prUrl comments st).1.errors.length
      = issues.length := by
  unfold createIssues
  rw [createIssuesGo_length]
  simp

/-! ### Fail-open dedup lookup (claim C5) -/

/-- C5: when the tracker query throws, `getProcessedCommentIds` returns
the empty processed set and `isPRProcessed` returns false, and the filter
applied against the empty set keeps every freshly collected comment: the
run proceeds instead of dropping work. -/
theorem dedup_fails_open_c5 (e : Text) :
    (∀ (tracker : List TrackerIssue) (prUrl : Text),
      getProcessedCommentIds (some e) tracker prUrl = []) ∧
    (∀ (tracker : List TrackerIssue) (owner repo : Text) (n : Nat),
      isPRProcessed (some e) tracker owner repo n = false) ∧
    (∀ (allComments : List CommentData) (tracker : List TrackerIssue)
        (prUrl : Text),
      allComments.filter (fun c =>
        !((getProcessedCommentIds (some e) tracker prUrl).contains c.id))
        = allComments) := by
  refine ⟨fun tracker prUrl => rfl, fun tracker owner repo n => rfl, ?_⟩
  intro allComments tracker prUrl
  have h : getProcessedCommentIds (some e) tracker prUrl = [] := rfl
  rw [h]
  simp

/-! ### Resolution filtering (claims C8 and C10) -/

theorem buildResolutionMap_inner_preserve (isRes : Bool) (k : Nat) :
    ∀ (ids : List Nat) (m : Nat → Option Bool), k ∉ ids →
      (ids.foldl (fun m cid =>
        if cid ≠ 0 then fun j => if j = cid then some isRes else m j
        else m) m) k = m k := by
  intro ids
  induction ids with
  | nil => intro m h; rfl
  | cons cid rest ih =>
    intro m h
    have hk : k ≠ cid := fun hkc => h (by simp [hkc])
    have hrest : k ∉ rest := fun hr => h (by simp [hr])
    rw [List.foldl_cons, ih _ hrest]
    by_cases hz : cid ≠ 0 <;> simp [hz, hk]

theorem buildResolutionMap_not_mem (threads : List ReviewThread) (k : Nat)
    (h : ∀ t ∈ threads, k ∉ t.commentIds) :
    buildResolutionMap threads k = none := by
  unfold buildResolutionMap
  suffices hgen : ∀ (m : Nat → Option Bool),
      (threads.foldl (fun m t =>
        t.commentIds.foldl (fun m cid =>
          if cid ≠ 0 then fun j => if j = cid then some t.isResolved else m j
          else m) m) m) k = m k by
    exact hgen _
  induction threads with
  | nil => intro m; rfl
  | cons t rest ih =>
    intro m
    rw [List.foldl_cons,
      ih (fun t' ht' => h t' (by simp [ht'])),
      buildResolutionMap_inner_preserve t.isResolved k t.commentIds m
        (h t (by simp))]

/-- C8: a location-anchored comment marked resolved in the fetched
resolution data never appears among the collected comments: every
review-typed entry of the collector's output carries an id whose
resolution lookup is not `true`. -/
theorem resolved_review_comment_excluded_c8
    (issueComments : List RawComment)
    (reviewComments : List ReviewRawComment)
    (threads : List ReviewThread) (entry : CommentData)
    (hmem : entry ∈ fetchAllPRComments issueComments reviewComments threads)
    (htype : entry.type = CommentType.review) :
    buildResolutionMap threads entry.id ≠ some true := by
  unfold fetchAllPRComments at hmem
  rcases List.mem_append.mp hmem with hIss | hRev
  · rcases List.mem_filterMap.mp hIss with ⟨c, hc, hfc⟩
    by_cases hcond : !c.body.isEmpty && !(containsSeq triggerPhrase c.body)
    · rw [if_pos hcond] at hfc
      cases hfc
      cases htype
    · rw [if_neg hcond] at hfc
      cases hfc
  · rcases List.mem_filterMap.mp hRev with ⟨c, hc, hfc⟩
    simp only [] at hfc
    by_cases hcond : !c.body.isEmpty
        && !((buildResolutionMap threads c.id).getD false)
    · rw [if_pos hcond] at hfc
      intro hres
      have hid : entry.id = c.id := by cases hfc; rfl
      rw [hid] at hres
      rw [hres] at hcond
      simp at hcond
    · rw [if_neg hcond] at hfc
      cases hfc

/-- Witness for C8 at a concrete collected review entry: its id is not
marked resolved in the fetched data. -/
theorem resolved_review_comment_excluded_c8_witness :
    buildResolutionMap [{ commentIds := [6], isResolved := true }] 5
      ≠ some true :=
  resolved_review_comment_excluded_c8 []
    [{ id := 5, body := "keep this".toList, htmlUrl := [],
       path := "a.ts".toList, line := 3 }]
    [{ commentIds := [6], isResolved := true }]
    { body := "[".toList ++ "a.ts".toList ++ ":".toList ++ natChars 3
        ++ "] ".toList ++ "keep this".toList
      id := 5, htmlUrl := [], type := CommentType.review }
    (by decide) (by decide)

/-- C10: a review comment whose id survives in no node of the truncated
resolution query (first 100 threads, first 10 comments each) is treated
as unresolved and collected, even when its owning thread is resolved. -/
theorem beyond_limit_comment_included_c10
    (issueComments : List RawComment)
    (reviewComments : List ReviewRawComment)
    (threads : List ReviewThread) (c : ReviewRawComment)
    (t : ReviewThread) (ht : t ∈ threads) (hid : c.id ∈ t.commentIds)
    (hres : t.isResolved = true)
    (hmem : c ∈ reviewComments) (hbody : ¬ c.body.isEmpty)
    (hgone : ∀ t' ∈ truncateThreads threads, c.id ∉ t'.commentIds) :
    ({ body := "[".toList ++ c.path ++ ":".toList ++ natChars c.line
         ++ "] ".toList ++ c.body
       id := c.id, htmlUrl := c.htmlUrl,
       type := CommentType.review } : CommentData)
      ∈ fetchAllPRComments issueComments reviewComments
          (truncateThreads threads) := by
  have hnone : buildResolutionMap (truncateThreads threads) c.id = none :=
    buildResolutionMap_not_mem _ _ hgone
  unfold fetchAllPRComments
  refine List.mem_append.mpr (Or.inr ?_)
  refine List.mem_filterMap.mpr ⟨c, hmem, ?_⟩
  simp only [hnone]
  rw [if_pos]
  simp [hbody]

/-- Witness for C10: the eleventh comment of a resolved thread is beyond
the `comments(first: 10)` window and is collected anyway. -/
theorem beyond_limit_comment_included_c10_witness :
    ({ body := "[".toList ++ "a.ts".toList ++ ":".toList ++ natChars 7
         ++ "] ".toList ++ "stale note".toList
       id := 11, htmlUrl := [],
       type := CommentType.review } : CommentData)
      ∈ fetchAllPRComments []
          [{ id := 11, body := "stale note".toList, htmlUrl := [],
             path := "a.ts".toList, line := 7 }]
          (truncateThreads
            [{ commentIds := [1, 2, 3, 4, 5, 6, 7, 8, 9, 10, 11],
               isResolved := true }]) :=
  beyond_limit_comment_included_c10 [] _ _
    { id := 11, body := "stale note".toList, htmlUrl := [],
      path := "a.ts".toList, line := 7 }
    { commentIds := [1, 2, 3, 4, 5, 6, 7, 8, 9, 10, 11], isResolved := true }
    (by decide) (by decide) (by decide) (by decide) (by decide) (by decide)

/-! ### Concrete fixtures for evaluating the embedded code -/

def demoCfg : GitlinConfig := { linearTeamId := "team".toList }

def demoCreated : CreatedIssue :=
  { id := "lin-id-1".toList, identifier := "T-1".toList,
    url := "https://linear.app/t/T-1".toList }

def demoEnvOk : LinearEnv :=
  { labelListing := .ok []
    createLabelResult := .ok (some "lbl-gitlin".toList)
    usersResult := .ok []
    createOutcome := fun _ => .ok demoCreated }

def demoState0 : LinearState :=
  { labelCache := none, tracker := [], createCalls := 0 }

def demoStateCached : LinearState :=
  { labelCache := some [], tracker := [], createCalls := 0 }

def demoComments : List CommentData :=
  [{ body := "Fix bug A".toList, id := 1, htmlUrl := [],
     type := CommentType.issue }]

def demoIssue : ParsedIssue :=
  { title := "Fix bug A".toList, description := "Fix the bug".toList,
    priority := "medium".toList }

def demoPrUrl : Text := prUrlFor "octo".toList "demo".toList 1

def demoRun1 : CreateIssuesResult × LinearState :=
  createIssues demoCfg demoEnvOk [demoIssue] (some demoPrUrl)
    (some demoComments) demoState0

/-! ### The thread-identity annotation is never persisted (claim C3) -/

/-- C3, evaluated at a failing input: a successful run on PR
`octo/demo#1` persists one issue whose description contains the PR URL
(so the dedup query matches it), yet `isPRProcessed` still reports false,
because no code path ever writes the `<!-- gitlin:pr:... -->` annotation
it searches for. -/
theorem pr_marker_never_persisted_c3 :
    demoRun1.1.issues.length = 1 ∧
    demoRun1.2.tracker.map
      (fun t => containsSeq demoPrUrl (t.description.getD [])) = [true] ∧
    isPRProcessed none demoRun1.2.tracker "octo".toList "demo".toList 1
      = false := by
  refine ⟨rfl, by decide, by decide⟩

/-! ### The dependency note is never persisted (claim C6) -/

def demoIssue0 : ParsedIssue :=
  { title := "Item zero".toList, description := "First work item".toList,
    priority := "high".toList }

def demoIssue1 : ParsedIssue :=
  { title := "Item one".toList, description := "Second work item".toList,
    priority := "low".toList, dependencies := some [0] }

def demoRun2 : CreateIssuesResult × LinearState :=
  createIssues demoCfg demoEnvOk [demoIssue0, demoIssue1] (some demoPrUrl)
    (some demoComments) demoState0

def dependencyLabel : Text := "**Dependencies:**".toList

/-- C6, evaluated at a failing input: both items of the batch are created
and item 1 declares a backward dependency on item 0, which the running
map resolves; the dependency note is computed only on the local variable
after the creation call (`descriptionAfterCreate`), so neither persisted
description contains it. -/
theorem dependency_note_not_persisted_c6 :
    demoRun2.1.issues.length = 2 ∧
    demoRun2.2.tracker.map
      (fun t => containsSeq dependencyLabel (t.description.getD []))
      = [false, false] ∧
    containsSeq dependencyLabel
      (descriptionAfterCreate
        (buildDescription demoIssue1.description (some demoPrUrl)
          (some demoComments) demoIssue1.effort)
        demoIssue1.dependencies [(0, demoCreated.id)]) = true := by
  refine ⟨rfl, by decide, by decide⟩

/-! ### Best-effort versus fatal transport failures (claim C9) -/

def demoIssueAssignee : ParsedIssue :=
  { title := "Assigned item".toList, description := "Work".toList,
    priority := "medium".toList,
    assignee := some "alice@example.com".toList }

def demoEnvUsersFail : LinearEnv :=
  { labelListing := .ok []
    createLabelResult := .ok (some "lbl-gitlin".toList)
    usersResult := .error "TransportError: ECONNRESET".toList
    createOutcome := fun _ => .ok demoCreated }

/-- Counterexample to C9 as stated: the user-directory fetch during
assignee resolution is wrapped in try/catch, so a transport failure there
is absorbed and the item is still created. -/
theorem user_lookup_failure_absorbed_c9_counterexample :
    (createIssue demoCfg demoEnvUsersFail demoState0 demoIssueAssignee []
      none none).1 = Except.ok demoCreated := by
  rfl

/-- C9 amended: a transport failure is absorbed not only at reaction
posting and the dedup lookup but also at the assignee user-directory
fetch and the provenance-label auto-creation; a label-listing failure on
a cold cache does propagate out of the item creation. -/
theorem transport_error_sites_c9_amended (e : Text) :
    (∀ (cfg : GitlinConfig) (clr : Except Text (Option Text))
        (ur : Except Text (List UserData)) (co : Nat → CreateOutcome)
        (st : LinearState) (issue : ParsedIssue)
        (created : List (Nat × Text)) (prUrl : Option Text)
        (comments : Option (List CommentData)),
      st.labelCache = none →
      (createIssue cfg ⟨.error e, clr, ur, co⟩ st issue created prUrl
        comments).1 = .error e) ∧
    (∀ (cfg : GitlinConfig) (ls : List (Text × Text)) (ci : CreatedIssue)
        (cache : List (Text × Text)) (st : LinearState)
        (issue : ParsedIssue) (created : List (Nat × Text))
        (prUrl : Option Text) (comments : Option (List CommentData)),
      st.labelCache = some cache →
      (createIssue cfg ⟨.ok ls, .error e, .error e, fun _ => .ok ci⟩ st
        issue created prUrl comments).1 = .ok ci) ∧
    (addReaction (.error e) = .ok ()) ∧
    (∀ (tracker : List TrackerIssue) (prUrl : Text),
      getProcessedCommentIds (some e) tracker prUrl = []) ∧
    (∀ (tracker : List TrackerIssue) (owner repo : Text) (n : Nat),
      isPRProcessed (some e) tracker owner repo n = false) := by
  refine ⟨?_, ?_, rfl, fun tracker prUrl => rfl,
    fun tracker owner repo n => rfl⟩
  · intro cfg clr ur co st issue created prUrl comments h
    simp [createIssue, ensureLabelCache, h]
  · intro cfg ls ci cache st issue created prUrl comments h
    simp [createIssue, ensureLabelCache, h, finishCreate]

/-- Witness for the amended C9 at concrete inputs. -/
theorem transport_error_sites_c9_amended_witness :
    (createIssue demoCfg
        ⟨.error "boom".toList, .ok none, .ok [],
          fun _ => .ok demoCreated⟩
        demoState0 demoIssue [] none none).1
      = .error "boom".toList ∧
    (createIssue demoCfg
        ⟨.ok [], .error "boom".toList, .error "boom".toList,
          fun _ => .ok demoCreated⟩
        demoStateCached demoIssue [] none none).1 = .ok demoCreated :=
  ⟨(transport_error_sites_c9_amended "boom".toList).1 _ _ _ _ _ _ _ _ _ rfl,
   (transport_error_sites_c9_amended "boom".toList).2.1 _ _ _ _ _ _ _ _ _
     rfl⟩

/-! ### Every created item embeds the full marker set (claim C4) -/

theorem ensureLabelCache_tracker (env : LinearEnv) (st : LinearState)
    (cache : List (Text × Text)) (st' : LinearState)
    (h : ensureLabelCache env st = .ok (cache, st')) :
    st'.tracker = st.tracker := by
  unfold ensureLabelCache at h
  cases hc : st.labelCache with
  | some c =>
    rw [hc] at h
    cases h
    rfl
  | none =>
    rw [hc] at h
    cases hl : env.labelListing with
    | error e =>
      rw [hl] at h
      cases h
    | ok ls =>
      rw [hl] at h
      cases h
      rfl

theorem finishCreate_ok_tracker (cfg : GitlinConfig) (env : LinearEnv)
    (issue : ParsedIssue) (description : Text)
    (cache : List (Text × Text)) (st1 : LinearState) (ci : CreatedIssue)
    (h : (finishCreate cfg env issue description cache st1).1 = .ok ci) :
    ∃ t : TrackerIssue,
      (finishCreate cfg env issue description cache st1).2.tracker
        = st1.tracker ++ [t] ∧ t.description = some description := by
  unfold finishCreate at h ⊢
  cases hco : env.createOutcome st1.createCalls with
  | throwErr e => simp [hco] at h
  | apiFail => simp [hco] at h
  | ok created =>
    simp only [hco]
    exact ⟨_, rfl, rfl⟩

theorem finishCreate_error_tracker (cfg : GitlinConfig) (env : LinearEnv)
    (issue : ParsedIssue) (description : Text)
    (cache : List (Text × Text)) (st1 : LinearState) (e : Text)
    (h : (finishCreate cfg env issue description cache st1).1
      = .error e) :
    (finishCreate cfg env issue description cache st1).2.tracker
      = st1.tracker := by
  unfold finishCreate at h ⊢
  cases hco : env.createOutcome st1.createCalls with
  | throwErr e' => simp [hco]
  | apiFail => simp [hco]
  | ok created => simp [hco] at h

theorem createIssue_ok_tracker (cfg : GitlinConfig) (env : LinearEnv)
    (st : LinearState) (issue : ParsedIssue)
    (created : List (Nat × Text)) (prUrl : Option Text)
    (comments : Option (List CommentData)) (ci : CreatedIssue)
    (h : (createIssue cfg env st issue created prUrl comments).1 = .ok ci) :
    ∃ t : TrackerIssue,
      (createIssue cfg env st issue created prUrl comments).2.tracker
        = st.tracker ++ [t] ∧
      t.description = some (buildDescription issue.description prUrl
        comments issue.effort) := by
  unfold createIssue at h ⊢
  cases hec : ensureLabelCache env st with
  | error e =>
    rw [hec] at h
    exact absurd h (by simp)
  | ok pr =>
    rcases pr with ⟨cache, st1⟩
    rw [hec] at h
    have h' : (finishCreate cfg env issue
        (buildDescription issue.description prUrl comments issue.effort)
        cache st1).1 = .ok ci := h
    obtain ⟨t, htr, hd⟩ := finishCreate_ok_tracker cfg env issue _ cache
      st1 ci h'
    refine ⟨t, ?_, hd⟩
    show (finishCreate cfg env issue
        (buildDescription issue.description prUrl comments issue.effort)
        cache st1).2.tracker = st.tracker ++ [t]
    rw [htr, ensureLabelCache_tracker env st cache st1 hec]

theorem createIssue_error_tracker (cfg : GitlinConfig) (env : LinearEnv)
    (st : LinearState) (issue : ParsedIssue)
    (created : List (Nat × Text)) (prUrl : Option Text)
    (comments : Option (List CommentData)) (e : Text)
    (h : (createIssue cfg env st issue created prUrl comments).1
      = .error e) :
    (createIssue cfg env st issue created prUrl comments).2.tracker
      = st.tracker := by
  unfold createIssue at h ⊢
  cases hec : ensureLabelCache env st with
  | error e' =>
    rfl
  | ok pr =>
    rcases pr with ⟨cache, st1⟩
    rw [hec] at h
    have h' : (finishCreate cfg env issue
        (buildDescription issue.description prUrl comments issue.effort)
        cache st1).1 = .error e := h
    have htr := finishCreate_error_tracker cfg env issue
      (buildDescription issue.description prUrl comments issue.effort)
      cache st1 e h'
    show (finishCreate cfg env issue
        (buildDescription issue.description prUrl comments issue.effort)
        cache st1).2.tracker = st.tracker
    rw [htr, ensureLabelCache_tracker env st cache st1 hec]

theorem createIssuesGo_tracker_descriptions (cfg : GitlinConfig)
    (env : LinearEnv) (prUrl : Option Text)
    (comments : Option (List CommentData)) :
    ∀ (batch : List ParsedIssue) (i : Nat) (created : List (Nat × Text))
      (acc : CreateIssuesResult) (st : LinearState),
      ∀ t ∈ (createIssuesGo cfg env prUrl comments batch i created acc
        st).2.tracker,
        t ∈ st.tracker ∨ ∃ issue ∈ batch, t.description
          = some (buildDescription issue.description prUrl comments
            issue.effort) := by
  intro batch
  induction batch with
  | nil =>
    intro i created acc st t ht
    exact Or.inl ht
  | cons issue rest ih =>
    intro i created acc st t ht
    rw [createIssuesGo] at ht
    rcases hci : createIssue cfg env st issue created prUrl comments
      with ⟨res, st'⟩
    cases res with
    | ok ci =>
      rw [hci] at ht
      rcases ih _ _ _ _ t ht with hmem | ⟨issue', hiss, hdesc⟩
      · obtain ⟨t0, htr, hd0⟩ := createIssue_ok_tracker cfg env st issue
          created prUrl comments ci (by rw [hci])
        rw [hci] at htr
        rw [htr] at hmem
        rcases List.mem_append.mp hmem with hold | hnew
        · exact Or.inl hold
        · refine Or.inr ⟨issue, by simp, ?_⟩
          simp at hnew
          rw [hnew]
          exact hd0
      · exact Or.inr ⟨issue', by simp [hiss], hdesc⟩
    | error e =>
      rw [hci] at ht
      rcases ih _ _ _ _ t ht with hmem | ⟨issue', hiss, hdesc⟩
      · have htr := createIssue_error_tracker cfg env st issue created
          prUrl comments e (by rw [hci])
        rw [hci] at htr
        rw [htr] at hmem
        exact Or.inl hmem
      · exact Or.inr ⟨issue', by simp [hiss], hdesc⟩

theorem commentMarker_infix_buildDescription (descr : Text)
    (prUrl : Option Text) (effort : Option Text) (cs : List CommentData)
    (c : CommentData) (hc : c ∈ cs) :
    commentMarker c.id <:+: buildDescription descr prUrl (some cs) effort := by
  have hne : cs ≠ [] := List.ne_nil_of_mem hc
  have hcsE : cs.isEmpty = false := by
    rw [← Bool.not_eq_true, List.isEmpty_iff]
    exact hne
  obtain ⟨l1, l2, hsplit⟩ := List.append_of_mem hc
  have hblock : commentMarker c.id <:+: cs.flatMap (fun x => commentMarker x.id) := by
    rw [hsplit, List.flatMap_append, List.flatMap_cons]
    exact ⟨l1.flatMap (fun x => commentMarker x.id),
      l2.flatMap (fun x => commentMarker x.id), by simp⟩
  unfold buildDescription
  simp only [hcsE]
  have h2 : commentMarker c.id <:+:
      (match prUrl with
        | some u =>
          if u.isEmpty then descr
          else descr ++ "\n\n---\n\n**Related PR:** ".toList ++ u
        | none => descr) ++ "\n\n".toList
        ++ cs.flatMap (fun x => commentMarker x.id) := by
    refine hblock.trans ?_
    exact (List.suffix_append _ _).isInfix
  cases effort with
  | none => simpa using h2
  | some e =>
    by_cases he : e.isEmpty
    · simp only [he]
      simpa [he] using h2
    · simp only [eq_false_intro he]
      simp only [if_false, Bool.false_eq_true]
      refine h2.trans ?_
      exact ⟨[], "\n**Estimated Effort:** ".toList ++ e, by simp⟩

/-- C4: in a run where a non-empty comment list was collected, every item
the run persists to the tracker carries in its description the hidden
marker of every collected comment id — the full collected set. -/
theorem markers_for_all_comments_c4 (cfg : GitlinConfig) (env : LinearEnv)
    (issues : List ParsedIssue) (prUrl : Option Text)
    (comments : List CommentData) (st : LinearState)
    (hne : comments ≠ []) :
    ∀ t ∈ (createIssues cfg env issues prUrl (some comments) st).2.tracker,
      t ∈ st.tracker ∨
      ∀ c ∈ comments, ∃ d, t.description = some d
        ∧ commentMarker c.id <:+: d := by
  intro t ht
  rcases createIssuesGo_tracker_descriptions cfg env prUrl (some comments)
    issues 0 [] { success := true, issues := [], errors := [] } st t ht
    with hmem | ⟨issue, hiss, hdesc⟩
  · exact Or.inl hmem
  · refine Or.inr (fun c hc => ⟨_, hdesc, ?_⟩)
    exact commentMarker_infix_buildDescription issue.description prUrl
      issue.effort comments c hc

/-- Witness for C4: in the concrete one-item run, the persisted
description embeds the marker of the collected comment id 1. -/
theorem markers_for_all_comments_c4_witness :
    commentMarker 1 <:+:
      ((demoRun1.2.tracker.headD
        { title := [], description := none, issueId := [],
          url := [] }).description.getD []) := by
  rcases markers_for_all_comments_c4 demoCfg demoEnvOk [demoIssue]
      (some demoPrUrl) demoComments demoState0 (by decide)
      (demoRun1.2.tracker.headD
        { title := [], description := none, issueId := [], url := [] })
      (by decide) with h | h
  · exact absurd h (by decide)
  · obtain ⟨d, hd, hm⟩ := h
      { body := "Fix bug A".toList, id := 1, htmlUrl := [],
        type := CommentType.issue } (by decide)
    rw [hd]
    exact hm

/-! ### Pipeline idempotence (claim C1) -/

theorem noLt_append {s₁ s₂ : Text} (h1 : ∀ c ∈ s₁, c ≠ '<')
    (h2 : ∀ c ∈ s₂, c ≠ '<') : ∀ c ∈ s₁ ++ s₂, c ≠ '<' := by
  intro c hc
  rcases List.mem_append.mp hc with h | h
  · exact h1 c h
  · exact h2 c h

theorem scanCommentIds_of_no_lt (s : Text) (h : ∀ c ∈ s, c ≠ '<') :
    scanCommentIds s = [] := by
  have hskip := scanCommentIds_skip s [] h
  simpa using hskip

theorem scanCommentIds_nil : scanCommentIds [] = [] := rfl

theorem scanCommentIds_flatMap (ids : List Nat) :
    scanCommentIds (ids.flatMap commentMarker) = ids := by
  have h := scanCommentIds_block ids []
  simpa [scanCommentIds_nil] using h

theorem infix_append_left {x y : Text} (z : Text) (h : x <:+: y) :
    x <:+: y ++ z :=
  h.trans ⟨[], z, by simp⟩

/-- The marker block of a built description scans back to exactly the
collected comment ids, provided the free-text parts contain no opening
angle bracket. -/
theorem scanCommentIds_buildDescription (descr u : Text)
    (eff : Option Text) (cs : List CommentData)
    (hd : ∀ c ∈ descr, c ≠ '<') (hu : ∀ c ∈ u, c ≠ '<')
    (he : ∀ e, eff = some e → ∀ c ∈ e, c ≠ '<')
    (hcs : cs ≠ []) (hune : u ≠ []) :
    scanCommentIds (buildDescription descr (some u) (some cs) eff)
      = cs.map (fun c => c.id) := by
  have hcsE : cs.isEmpty = false := by
    rw [← Bool.not_eq_true, List.isEmpty_iff]
    exact hcs
  have huE : u.isEmpty = false := by
    rw [← Bool.not_eq_true, List.isEmpty_iff]
    exact hune
  have hlit1 : ∀ c ∈ ("\n\n---\n\n**Related PR:** ").toList, c ≠ '<' := by
    decide
  have hnn : ∀ c ∈ ("\n\n").toList, c ≠ '<' := by decide
  have hlit2 : ∀ c ∈ ("\n**Estimated Effort:** ").toList, c ≠ '<' := by
    decide
  have hblockmap : cs.flatMap (fun c => commentMarker c.id)
      = (cs.map (fun c => c.id)).flatMap commentMarker := by
    rw [List.flatMap_map]
  unfold buildDescription
  simp only [huE, hcsE, Bool.false_eq_true, if_false]
  cases eff with
  | none =>
    rw [hblockmap]
    simp only [List.append_assoc]
    rw [scanCommentIds_skip descr _ hd, scanCommentIds_skip _ _ hlit1,
      scanCommentIds_skip u _ hu, scanCommentIds_skip _ _ hnn,
      scanCommentIds_flatMap]
  | some e =>
    by_cases heE : e.isEmpty
    · simp only [heE, if_true]
      rw [hblockmap]
      simp only [List.append_assoc]
      rw [scanCommentIds_skip descr _ hd, scanCommentIds_skip _ _ hlit1,
        scanCommentIds_skip u _ hu, scanCommentIds_skip _ _ hnn,
        scanCommentIds_flatMap]
    · simp only [eq_false_intro heE, Bool.false_eq_true, if_false]
      have hsuf : ∀ c ∈ "\n**Estimated Effort:** ".toList ++ e, c ≠ '<' :=
        noLt_append hlit2 (he e rfl)
      rw [hblockmap]
      simp only [List.append_assoc]
      rw [scanCommentIds_skip descr _ hd, scanCommentIds_skip _ _ hlit1,
        scanCommentIds_skip u _ hu, scanCommentIds_skip _ _ hnn,
        scanCommentIds_block, scanCommentIds_of_no_lt _ hsuf,
        List.append_nil]

/-- The related-PR line makes the PR URL a substring of every built
description. -/
theorem prUrl_infix_buildDescription (descr u : Text) (eff : Option Text)
    (cs : List CommentData) (hcs : cs ≠ []) (hune : u ≠ []) :
    containsSeq u (buildDescription descr (some u) (some cs) eff)
      = true := by
  have hcsE : cs.isEmpty = false := by
    rw [← Bool.not_eq_true, List.isEmpty_iff]
    exact hcs
  have huE : u.isEmpty = false := by
    rw [← Bool.not_eq_true, List.isEmpty_iff]
    exact hune
  rw [containsSeq_spec]
  have h1 : u <:+: descr ++ "\n\n---\n\n**Related PR:** ".toList ++ u :=
    ⟨descr ++ "\n\n---\n\n**Related PR:** ".toList, [], by simp⟩
  unfold buildDescription
  simp only [huE, hcsE, Bool.false_eq_true, if_false]
  cases eff with
  | none => exact infix_append_left _ (infix_append_left _ h1)
  | some e =>
    by_cases heE : e.isEmpty
    · simp only [heE, if_true]
      exact infix_append_left _ (infix_append_left _ h1)
    · simp only [eq_false_intro heE, Bool.false_eq_true, if_false]
      exact infix_append_left _ (infix_append_left _
        (infix_append_left _ (infix_append_left _ h1)))

/-- Ids scanned from a matching stored description are in the processed
set. -/
theorem mem_getProcessedCommentIds (tracker : List TrackerIssue)
    (prUrl : Text) (t : TrackerIssue) (ht : t ∈ tracker) (d : Text)
    (hd : t.description = some d) (hmatch : containsSeq prUrl d = true) :
    ∀ x ∈ scanCommentIds d, x ∈ getProcessedCommentIds none tracker prUrl := by
  intro x hx
  unfold getProcessedCommentIds findIssuesByPRUrl
  refine List.mem_flatMap.mpr ⟨t, ?_, ?_⟩
  · refine List.mem_filter.mpr ⟨ht, ?_⟩
    rw [hd]
    exact hmatch
  · rw [hd]
    exact hx

theorem createIssue_tracker_mono (cfg : GitlinConfig) (env : LinearEnv)
    (st : LinearState) (issue : ParsedIssue)
    (created : List (Nat × Text)) (prUrl : Option Text)
    (comments : Option (List CommentData)) :
    ∀ t ∈ st.tracker,
      t ∈ (createIssue cfg env st issue created prUrl comments).2.tracker := by
  intro t ht
  cases hres : (createIssue cfg env st issue created prUrl comments).1 with
  | error e =>
    rw [createIssue_error_tracker cfg env st issue created prUrl comments
      e hres]
    exact ht
  | ok ci =>
    obtain ⟨t0, htr, _⟩ := createIssue_ok_tracker cfg env st issue created
      prUrl comments ci hres
    rw [htr]
    exact List.mem_append.mpr (Or.inl ht)

theorem createIssuesGo_tracker_mono (cfg : GitlinConfig) (env : LinearEnv)
    (prUrl : Option Text) (comments : Option (List CommentData)) :
    ∀ (batch : List ParsedIssue) (i : Nat) (created : List (Nat × Text))
      (acc : CreateIssuesResult) (st : LinearState),
      ∀ t ∈ st.tracker,
        t ∈ (createIssuesGo cfg env prUrl comments batch i created acc
          st).2.tracker := by
  intro batch
  induction batch with
  | nil =>
    intro i created acc st t ht
    exact ht
  | cons issue rest ih =>
    intro i created acc st t ht
    rw [createIssuesGo]
    rcases hci : createIssue cfg env st issue created prUrl comments
      with ⟨res, st'⟩
    have hmono : t ∈ st'.tracker := by
      have := createIssue_tracker_mono cfg env st issue created prUrl
        comments t ht
      rw [hci] at this
      exact this
    cases res with
    | ok ci => exact ih _ _ _ _ t hmono
    | error e => exact ih _ _ _ _ t hmono

/-- A batch run that reports at least one created item leaves in the
tracker an issue whose description was built for one of the batch's
candidates. -/
theorem createIssuesGo_success_tracker (cfg : GitlinConfig)
    (env : LinearEnv) (prUrl : Option Text)
    (comments : Option (List CommentData)) :
    ∀ (batch : List ParsedIssue) (i : Nat) (created : List (Nat × Text))
      (acc : CreateIssuesResult) (st : LinearState),
      acc.issues.length <
        (createIssuesGo cfg env prUrl comments batch i created acc
          st).1.issues.length →
      ∃ issue ∈ batch,
        ∃ t ∈ (createIssuesGo cfg env prUrl comments batch i created acc
          st).2.tracker,
          t.description = some (buildDescription issue.description prUrl
            comments issue.effort) := by
  intro batch
  induction batch with
  | nil =>
    intro i created acc st hlt
    simp [createIssuesGo] at hlt
  | cons issue rest ih =>
    intro i created acc st hlt
    rw [createIssuesGo] at hlt ⊢
    rcases hci : createIssue cfg env st issue created prUrl comments
      with ⟨res, st'⟩
    rw [hci] at hlt
    cases res with
    | ok ci =>
      obtain ⟨t0, htr, hd0⟩ := createIssue_ok_tracker cfg env st issue
        created prUrl comments ci (by rw [hci])
      have ht0 : t0 ∈ st'.tracker := by
        have : (createIssue cfg env st issue created prUrl
            comments).2.tracker = st.tracker ++ [t0] := htr
        rw [hci] at this
        rw [this]
        simp
      refine ⟨issue, by simp, t0, ?_, hd0⟩
      exact createIssuesGo_tracker_mono cfg env prUrl comments rest
        (i + 1) _ _ st' t0 ht0
    | error e =>
      obtain ⟨issue', hiss, t, htm, hdm⟩ := ih _ _ _ _ (by
        refine lt_of_le_of_lt ?_ hlt
        simp)
      exact ⟨issue', by simp [hiss], t, htm, hdm⟩

theorem prUrlFor_no_lt (owner repo : Text) (pr : Nat)
    (howner : ∀ c ∈ owner, c ≠ '<') (hrepo : ∀ c ∈ repo, c ≠ '<') :
    ∀ c ∈ prUrlFor owner repo pr, c ≠ '<' := by
  unfold prUrlFor
  refine noLt_append (noLt_append (noLt_append (noLt_append (noLt_append
    (by decide) howner) (by decide)) hrepo) (by decide)) ?_
  intro c hc
  exact isDigit_ne_lt (natChars_isDigit pr c hc)

theorem prUrlFor_ne_nil (owner repo : Text) (pr : Nat) :
    prUrlFor owner repo pr ≠ [] := by
  unfold prUrlFor
  simp

/-- C1: if a first run on a thread creates at least one tracked item with
a marker for every collected comment id, and no new comments appear, then
the second run's dedup filter empties the collected set and the run
returns the nothing-new outcome without invoking the extraction
collaborator. -/
theorem second_run_nothing_new_c1 (cfg : GitlinConfig)
    (linEnv : LinearEnv) (owner repo : Text) (pr : Nat)
    (cs : List CommentData) (issues1 : List ParsedIssue)
    (st0 : LinearState) (parsed2 : Except Text (List ParsedIssue))
    (lin2 : LinearEnv) (st2 : LinearState)
    (hcs : cs ≠ [])
    (howner : ∀ c ∈ owner, c ≠ '<') (hrepo : ∀ c ∈ repo, c ≠ '<')
    (hdesc : ∀ issue ∈ issues1, ∀ c ∈ issue.description, c ≠ '<')
    (heff : ∀ issue ∈ issues1, ∀ e, issue.effort = some e →
      ∀ c ∈ e, c ≠ '<')
    (hsucc : (createIssues cfg linEnv issues1
      (some (prUrlFor owner repo pr)) (some cs) st0).1.issues ≠ [])
    (hst2 : st2.tracker = (createIssues cfg linEnv issues1
      (some (prUrlFor owner repo pr)) (some cs) st0).2.tracker) :
    processCommentPR cfg ⟨cs, none, parsed2, lin2⟩ owner repo pr st2
      = (.alreadyProcessed cs.length, false, st2) ∧
    cs.filter (fun c => !((getProcessedCommentIds none st2.tracker
      (prUrlFor owner repo pr)).contains c.id)) = [] := by
  have hune := prUrlFor_ne_nil owner repo pr
  have hu := prUrlFor_no_lt owner repo pr howner hrepo
  obtain ⟨issue, hiss, t, htm, hdm⟩ :=
    createIssuesGo_success_tracker cfg linEnv
      (some (prUrlFor owner repo pr)) (some cs) issues1 0 []
      { success := true, issues := [], errors := [] } st0
      (by
        rcases hne : (createIssues cfg linEnv issues1
            (some (prUrlFor owner repo pr)) (some cs) st0).1.issues with
          _ | ⟨x, xs⟩
        · exact absurd hne hsucc
        · unfold createIssues at hne
          simp [hne])
  have hscan : scanCommentIds (buildDescription issue.description
      (some (prUrlFor owner repo pr)) (some cs) issue.effort)
      = cs.map (fun c => c.id) :=
    scanCommentIds_buildDescription issue.description
      (prUrlFor owner repo pr) issue.effort cs
      (hdesc issue hiss) hu (heff issue hiss) hcs hune
  have hmatch : containsSeq (prUrlFor owner repo pr)
      (buildDescription issue.description (some (prUrlFor owner repo pr))
        (some cs) issue.effort) = true :=
    prUrl_infix_buildDescription issue.description
      (prUrlFor owner repo pr) issue.effort cs hcs hune
  have hprocessed : ∀ c ∈ cs, c.id ∈ getProcessedCommentIds none
      st2.tracker (prUrlFor owner repo pr) := by
    intro c hc
    refine mem_getProcessedCommentIds st2.tracker _ t ?_ _ hdm hmatch
      c.id ?_
    · rw [hst2]
      exact htm
    · rw [hscan]
      exact List.mem_map.mpr ⟨c, hc, rfl⟩
  have hfilter : cs.filter (fun c => !((getProcessedCommentIds none
      st2.tracker (prUrlFor owner repo pr)).contains c.id)) = [] := by
    refine List.filter_eq_nil_iff.mpr ?_
    intro c hc
    have hmem := hprocessed c hc
    have hcont : (getProcessedCommentIds none st2.tracker
        (prUrlFor owner repo pr)).contains c.id = true :=
      List.elem_iff.mpr hmem
    simp
    exact hmem
  refine ⟨?_, hfilter⟩
  unfold processCommentPR
  have hcsE : cs.isEmpty = false := by
    rw [← Bool.not_eq_true, List.isEmpty_iff]
    exact hcs
  simp only [hcsE, Bool.false_eq_true, if_false, hfilter]
  rfl

/-- Witness for C1: after the concrete one-comment run, a second run on
the same thread short-circuits with the nothing-new outcome and an empty
filtered set, without consulting the extraction collaborator. -/
theorem second_run_nothing_new_c1_witness :
    processCommentPR demoCfg ⟨demoComments, none, .ok [], demoEnvOk⟩
      "octo".toList "demo".toList 1 demoRun1.2
      = (.alreadyProcessed demoComments.length, false, demoRun1.2) ∧
    demoComments.filter (fun c => !((getProcessedCommentIds none
      demoRun1.2.tracker (prUrlFor "octo".toList "demo".toList 1)).contains
      c.id)) = [] :=
  second_run_nothing_new_c1 demoCfg demoEnvOk "octo".toList "demo".toList
    1 demoComments [demoIssue] demoState0 (.ok []) demoEnvOk demoRun1.2
    (by decide) (by decide) (by decide) (by decide)
    (by
      intro issue hiss e he
      simp at hiss
      subst hiss
      simp [demoIssue] at he)
    (by decide) rfl

end Gitlin
